import Mathlib

/-!
# RADIUS resource schemas of the RouterOS Terraform provider

A verification development for `routeros/resource_radius.go`.

The Go file builds two schema tables (`map[string]*schema.Schema`), wraps each in
a resource descriptor, and defines one read adapter, `compatibleSystemRead`,
that writes the `Default` of the table's `vrf` descriptor after a read.

Embedding.

* A `*schema.Schema` is an address into a heap of descriptor objects and a
  `map[string]*schema.Schema` is an address into a heap of tables, so that the
  sharing of one table between a resource descriptor and its read callback, and
  the write through `s[vrfKey]`, are the ones of the Go program.
* A run-time panic (nil pointer dereference) is the result `none`.
* Function values that come from outside the file (the validation primitives of
  the plugin SDK, the generic CRUD helpers of the provider) are recorded by name
  together with their arguments; the validation primitives get their meaning
  from `ValidateFunc.call`.
* `SystemResourceRead`, which is declared in another file of the provider, is an
  argument of `compatibleSystemRead`; it may read the heap and returns the
  diagnostics and the resource data it leaves behind.
-/

namespace routeros

/-! ## Plugin SDK data -/

/-- The `schema.ValueType` constants used by the file. -/
inductive ValueType where
  | TypeBool
  | TypeInt
  | TypeString
  deriving DecidableEq, Repr

/-- Selector of the field that identifies an instance on the router (`Id`, `Name`). -/
inductive IdType where
  | Id
  | Name
  deriving DecidableEq, Repr

/-- The Go values (`interface{}`) that occur as defaults and as attribute values. -/
inductive Value where
  | bool (b : Bool)
  | int (i : Int)
  | str (s : String)
  | idType (t : IdType)
  deriving DecidableEq, Repr

/-- A `schema.SchemaValidateFunc` value, recorded by the SDK call that produces it. -/
inductive ValidateFunc where
  | IntBetween (min max : Int)
  | IsIPAddress
  | StringInSlice (valid : List String) (ignoreCase : Bool)
  deriving DecidableEq, Repr

/-- A `schema.SchemaDiffSuppressFunc` value, recorded by name. -/
inductive DiffSuppressFunc where
  | TimeEquall
  deriving DecidableEq, Repr

/-- The fields of `schema.Schema` that the file sets; a field left out of a
composite literal has its Go zero value. -/
structure Schema where
  Type_ : ValueType
  Optional : Bool := false
  Required : Bool := false
  Default : Option Value := none
  Description : String := ""
  ValidateFunc : Option ValidateFunc := none
  Sensitive : Bool := false
  DiffSuppressFunc : Option DiffSuppressFunc := none
  deriving DecidableEq, Repr

/-- Severity of a diagnostic. -/
inductive Severity where
  | Error
  | Warning
  deriving DecidableEq, Repr

/-- One `diag.Diagnostic`. -/
structure Diagnostic where
  Severity : Severity
  Summary : String
  Detail : String := ""
  deriving DecidableEq, Repr

/-- The type `diag.Diagnostics`. -/
abbrev Diagnostics := List Diagnostic

/-- The part of `schema.ResourceData` a read works on: the id and the attribute
values that are set. -/
structure ResourceData where
  Id : String := ""
  values : List (String × Value) := []
  deriving DecidableEq, Repr

/-- The Go zero value test of the SDK (`false`, `0`, the empty string). An
`IdType` constant is the default of a meta entry and never attribute data. -/
def Value.isZero : Value → Bool
  | .bool b => !b
  | .int i => i == 0
  | .str s => s == ""
  | .idType _ => false

/-- Modelled from the spec: `ResourceData.GetOk` belongs to the plugin SDK. It
returns the value stored under the key and whether the key "has been set to a
non-zero value"; the spec calls this the state containing "a value for the VRF
attribute". -/
def ResourceData.GetOk (d : ResourceData) (key : String) : Option Value × Bool :=
  match d.values.lookup key with
  | none => (none, false)
  | some v => (some v, !v.isZero)

/-- Modelled from the spec: `ResourceData.Set` belongs to the plugin SDK; it
stores a value under a key, replacing what was there. -/
def ResourceData.Set (d : ResourceData) (key : String) (v : Value) : ResourceData :=
  { d with values := (key, v) :: d.values.filter (fun e => e.1 != key) }

/-! ## The heap of descriptors and tables -/

/-- Address of a `schema.Schema` object. -/
abbrev SchemaPtr := Nat

/-- Address of a `map[string]*schema.Schema`. -/
abbrev MapRef := Nat

/-- Contents of a `map[string]*schema.Schema`: keys with the pointers stored under them. -/
abbrev SchemaMap := List (String × SchemaPtr)

/-- The heap: the descriptor objects and the tables, each found at its index. -/
structure Heap where
  schemas : List Schema := []
  maps : List SchemaMap := []
  deriving DecidableEq, Repr

namespace Heap

/-- The heap before anything is allocated. -/
def empty : Heap := {}

/-- The object `*p`, or `none` when `p` points to no object (the nil pointer). -/
def deref (h : Heap) (p : SchemaPtr) : Option Schema := h.schemas[p]?

/-- The contents of the table `s`. -/
def table (h : Heap) (s : MapRef) : Option SchemaMap := h.maps[s]?

/-- The Go expression `s[key]`: the pointer stored under `key`, `none` for the
nil pointer that a missing key (or a nil map) yields. -/
def index (h : Heap) (s : MapRef) (key : String) : Option SchemaPtr :=
  (h.table s).bind (fun m => m.lookup key)

/-- The descriptor `*s[key]`. -/
def attr (h : Heap) (s : MapRef) (key : String) : Option Schema :=
  (h.index s key).bind h.deref

/-- The keys of the table `s`. -/
def keys (h : Heap) (s : MapRef) : List String :=
  ((h.table s).getD []).map Prod.fst

/-- The Go assignment `p.Default = v`; `none` when `p` is nil. -/
def setDefault (h : Heap) (p : SchemaPtr) (v : Value) : Option Heap :=
  match h.schemas[p]? with
  | none => none
  | some sc => some { h with schemas := h.schemas.set p { sc with Default := some v } }

/-- Pointers given to the values of a map literal, in order, from `base` on. -/
def assign (base : SchemaPtr) : List (String × Schema) → SchemaMap
  | [] => []
  | (k, _) :: es => (k, base) :: assign (base + 1) es

/-- A Go map literal `map[string]*schema.Schema{k: {...}, ...}`: every value is
allocated as a new object and the new table holds the pointers. -/
def mapLit (h : Heap) (entries : List (String × Schema)) : MapRef × Heap :=
  (h.maps.length,
   { schemas := h.schemas ++ entries.map Prod.snd,
     maps := h.maps ++ [assign h.schemas.length entries] })

end Heap

/-! ## Declarations of the provider that the file uses -/

/-- The constant `vrfKey` of the file. -/
def vrfKey : String := "vrf"

/-- Modelled from the spec: the constant `MetaResourcePath` is declared elsewhere
in the repository; it is the key of the "declared remote resource path". Only
its being different from the attribute names matters, which Go requires of the
constant keys of one map literal. -/
def MetaResourcePath : String := "___path___"

/-- Modelled from the spec: the constant `MetaId` is declared elsewhere in the
repository; it is the key of the "identity-field selector". -/
def MetaId : String := "___id___"

/-- Modelled from the spec: the constant `KeyComment` is declared elsewhere in
the repository; the spec lists the attribute as `comment`. -/
def KeyComment : String := "comment"

/-- Modelled from the spec: the constant `KeyDisabled` is declared elsewhere in
the repository; the spec lists the attribute as `disabled`. -/
def KeyDisabled : String := "disabled"

/-- Modelled from the spec: `PropResourcePath` is declared elsewhere in the
repository; the entry carries the "declared remote resource path" of the
resource descriptor. -/
def PropResourcePath (p : String) : Schema :=
  { Type_ := .TypeString, Optional := true, Default := some (.str p) }

/-- Modelled from the spec: `PropId` is declared elsewhere in the repository; the
entry carries the "identity-field selector" ("an opaque id or a name"). -/
def PropId (t : IdType) : Schema :=
  { Type_ := .TypeInt, Optional := true, Default := some (.idType t) }

/-- Modelled from the spec: `PropCommentRw` is declared elsewhere in the
repository; `comment` is one of the "free-form/boolean passthrough fields". -/
def PropCommentRw : Schema :=
  { Type_ := .TypeString, Optional := true }

/-- Modelled from the spec: `PropDisabledRw` is declared elsewhere in the
repository; `disabled` is one of the "free-form/boolean passthrough fields". -/
def PropDisabledRw : Schema :=
  { Type_ := .TypeBool, Optional := true }

/-- A lifecycle callback (`schema.CreateContextFunc`, `ReadContextFunc`, ...),
recorded by the call that produces it and the table it is bound to. -/
inductive ContextFunc where
  | DefaultCreate (s : MapRef)
  | DefaultRead (s : MapRef)
  | DefaultUpdate (s : MapRef)
  | DefaultDelete (s : MapRef)
  | DefaultSystemCreate (s : MapRef)
  | DefaultSystemUpdate (s : MapRef)
  | DefaultSystemDelete (s : MapRef)
  | compatibleSystemRead (s : MapRef)
  deriving DecidableEq, Repr

/-- A `schema.StateContextFunc` value, recorded by name. -/
inductive StateContextFunc where
  | ImportStatePassthroughContext
  deriving DecidableEq, Repr

/-- The type `schema.ResourceImporter`. -/
structure ResourceImporter where
  StateContext : StateContextFunc
  deriving DecidableEq, Repr

/-- The fields of `schema.Resource` that the file sets. -/
structure Resource where
  CreateContext : ContextFunc
  ReadContext : ContextFunc
  UpdateContext : ContextFunc
  DeleteContext : ContextFunc
  Importer : ResourceImporter
  Schema : MapRef
  deriving DecidableEq, Repr

/-! ## Validation primitives -/

/-- Functions of the Go standard library that the validation primitives call:
whether `net.ParseIP` finds an address, and `strings.EqualFold`. -/
structure GoLib where
  ParseIP : String → Bool
  EqualFold : String → String → Bool

namespace validation

/-- Modelled from the spec: `validation.IntBetween` belongs to the plugin SDK.
The spec has the ports "validated in [0,65535]": the value has to be an int
that is neither below `min` nor above `max`. The result is the pair of warnings
and errors of a `SchemaValidateFunc`. -/
def IntBetween (min max : Int) (i : Value) (k : String) : List String × List String :=
  match i with
  | .int v =>
    if v < min ∨ v > max then
      ([], ["expected " ++ k ++ " to be in the range (" ++ toString min ++ " - " ++ toString max
              ++ "), got " ++ toString v])
    else ([], [])
  | _ => ([], ["expected type of " ++ k ++ " to be integer"])

/-- Modelled from the spec: `validation.StringInSlice` belongs to the plugin SDK.
The spec has the value "must be one of" the listed strings; with `ignoreCase`
the comparison is `strings.EqualFold`. -/
def StringInSlice (L : GoLib) (valid : List String) (ignoreCase : Bool) (i : Value) (k : String) :
    List String × List String :=
  match i with
  | .str v =>
    if valid.any (fun str => v == str || (ignoreCase && L.EqualFold v str)) then ([], [])
    else ([], ["expected " ++ k ++ " to be one of the valid strings, got " ++ v])
  | _ => ([], ["expected type of " ++ k ++ " to be string"])

/-- Modelled from the spec: `validation.IsIPAddress` belongs to the plugin SDK.
The value "must be a syntactically valid IPv4 or IPv6 address". -/
def IsIPAddress (L : GoLib) (i : Value) (k : String) : List String × List String :=
  match i with
  | .str v =>
    if L.ParseIP v then ([], [])
    else ([], ["expected " ++ k ++ " to contain a valid IP, got: " ++ v])
  | _ => ([], ["expected type of " ++ k ++ " to be string"])

end validation

/-- Calling a recorded validator on a value `i` of the attribute `k`. -/
def ValidateFunc.call (L : GoLib) : ValidateFunc → Value → String → List String × List String
  | .IntBetween min max => validation.IntBetween min max
  | .IsIPAddress => validation.IsIPAddress L
  | .StringInSlice valid ignoreCase => validation.StringInSlice L valid ignoreCase

/-- A validator accepts a value when it reports no error. -/
def ValidateFunc.accepts (L : GoLib) (f : ValidateFunc) (i : Value) (k : String) : Bool :=
  (f.call L i k).2.isEmpty

/-! ## The file -/

/-- The map literal bound to `resSchema` in `ResourceRadius`. `PropCommentRw` and
`PropDisabledRw` are package-level descriptors in Go; nothing in the file writes
to this table, so the table holding objects of its own cannot be told apart. -/
def ResourceRadius.resSchema : List (String × Schema) := [
  (MetaResourcePath, PropResourcePath "/radius"),
  (MetaId, PropId .Id),
  ("accounting_backup", {
    Type_ := .TypeBool,
    Optional := true,
    Default := some (.bool false),
    Description := "An option whether the configuration is for the backup RADIUS server." }),
  ("accounting_port", {
    Type_ := .TypeInt,
    Optional := true,
    Default := some (.int 1813),
    Description := "RADIUS server port used for accounting.",
    ValidateFunc := some (.IntBetween 0 65535) }),
  ("address", {
    Type_ := .TypeString,
    Required := true,
    Description := "IPv4 or IPv6 address of RADIUS server.",
    ValidateFunc := some .IsIPAddress }),
  ("authentication_port", {
    Type_ := .TypeInt,
    Optional := true,
    Default := some (.int 1812),
    Description := "RADIUS server port used for authentication.",
    ValidateFunc := some (.IntBetween 0 65535) }),
  ("called_id", {
    Type_ := .TypeString,
    Optional := true,
    Description := "RADIUS calling station identifier." }),
  ("certificate", {
    Type_ := .TypeString,
    Optional := true,
    Default := some (.str "none"),
    Description := "Certificate to use for communication with RADIUS Server with RadSec enabled." }),
  (KeyComment, PropCommentRw),
  (KeyDisabled, PropDisabledRw),
  ("domain", {
    Type_ := .TypeString,
    Optional := true,
    Description := "Microsoft Windows domain of client passed to RADIUS servers that require domain validation." }),
  ("protocol", {
    Type_ := .TypeString,
    Optional := true,
    Default := some (.str "udp"),
    Description := "An option specifies the protocol to use when communicating with the RADIUS Server.",
    ValidateFunc := some (.StringInSlice ["radsec", "udp"] false) }),
  ("realm", {
    Type_ := .TypeString,
    Optional := true,
    Description := "Explicitly stated realm (user domain), so the users do not have to provide proper ISP domain name in the user name." }),
  ("secret", {
    Type_ := .TypeString,
    Optional := true,
    Sensitive := true,
    Description := "The shared secret to access the RADIUS server." }),
  ("service", {
    Type_ := .TypeString,
    Optional := true,
    Description := "A comma-separated list of router services that will use the RADIUS server. Possible values: `hotspot`, `login`, `ppp`, `wireless`, `dhcp`." }),
  ("src_address", {
    Type_ := .TypeString,
    Optional := true,
    Description := "Source IPv4/IPv6 address of the packets sent to the RADIUS server.",
    ValidateFunc := some .IsIPAddress }),
  ("timeout", {
    Type_ := .TypeString,
    Optional := true,
    Default := some (.str "300ms"),
    Description := "A timeout, after which the request should be resent.",
    DiffSuppressFunc := some .TimeEquall })]

/-- The function `ResourceRadius`: allocates the table and returns the resource
descriptor bound to it. -/
def ResourceRadius (h : Heap) : Resource × Heap :=
  let r := h.mapLit ResourceRadius.resSchema
  let resSchema := r.1
  ({ CreateContext := .DefaultCreate resSchema,
     ReadContext := .DefaultRead resSchema,
     UpdateContext := .DefaultUpdate resSchema,
     DeleteContext := .DefaultDelete resSchema,
     Importer := { StateContext := .ImportStatePassthroughContext },
     Schema := resSchema }, r.2)

/-- The map literal bound to `resSchema` in `ResourceRadiusIncoming`. -/
def ResourceRadiusIncoming.resSchema : List (String × Schema) := [
  (MetaResourcePath, PropResourcePath "/radius/incoming"),
  (MetaId, PropId .Name),
  ("accept", {
    Type_ := .TypeBool,
    Optional := true,
    Default := some (.bool false),
    Description := "An option whether to accept the unsolicited messages." }),
  ("port", {
    Type_ := .TypeInt,
    Optional := true,
    Default := some (.int 3799),
    Description := "The port number to listen for the requests on.",
    ValidateFunc := some (.IntBetween 0 65535) }),
  (vrfKey, {
    Type_ := .TypeString,
    Optional := true,
    Description := "VRF on which service is listening for incoming connections. This option is available in RouterOS starting from version 7.4." })]

/-- The function `ResourceRadiusIncoming`: allocates the table and returns the
resource descriptor bound to it. -/
def ResourceRadiusIncoming (h : Heap) : Resource × Heap :=
  let r := h.mapLit ResourceRadiusIncoming.resSchema
  let resSchema := r.1
  ({ CreateContext := .DefaultSystemCreate resSchema,
     ReadContext := .compatibleSystemRead resSchema,
     UpdateContext := .DefaultSystemUpdate resSchema,
     DeleteContext := .DefaultSystemDelete resSchema,
     Importer := { StateContext := .ImportStatePassthroughContext },
     Schema := resSchema }, r.2)

/-- The type of `SystemResourceRead`, which is declared in another file of the
provider: from the context, the table, the resource data and the provider meta
it gives the diagnostics and the resource data it leaves behind. It can read the
heap; it does not write the tables or the descriptors (the spec has it "populate
state", which is the resource data). -/
abbrev ReadHelper (Ctx Meta : Type) :=
  Ctx → MapRef → ResourceData → Meta → Heap → Diagnostics × ResourceData

/-- The function `compatibleSystemRead`: the callback it returns, run on a heap.
The argument `sysRead` stands for `SystemResourceRead`. The result is `none`
when the callback panics. -/
def compatibleSystemRead {Ctx Meta : Type} (sysRead : ReadHelper Ctx Meta) (s : MapRef) :
    Ctx → ResourceData → Meta → Heap → Option (Diagnostics × ResourceData × Heap) :=
  fun ctx d m h =>
    let r := sysRead ctx s d m h
    let diags := r.1
    let d := r.2
    if (d.GetOk vrfKey).2 then
      match h.index s vrfKey with
      | none => none
      | some p =>
        match h.setDefault p (.str "main") with
        | none => none
        | some h1 => some (diags, d, h1)
    else
      some (diags, d, h)

/-- The user-facing attributes of a table: its keys without the two meta entries. -/
def userAttributes (h : Heap) (s : MapRef) : List String :=
  (h.keys s).filter (fun k => k != MetaResourcePath && k != MetaId)

/-- The `Default` of the descriptor `*s[vrfKey]`; the outer `none` when there is
no such descriptor. -/
def vrfDefault (h : Heap) (s : MapRef) : Option (Option Value) :=
  (h.attr s vrfKey).map (fun sc => sc.Default)

/-- One call of a read callback: the context, the resource data and the provider
meta it is given. -/
structure ReadCall (Ctx Meta : Type) where
  ctx : Ctx
  d : ResourceData
  m : Meta

/-- A sequence of reads through the callback of `compatibleSystemRead sysRead s`,
each run on the heap the previous one left; `none` when one of them panics. -/
def runReads {Ctx Meta : Type} (sysRead : ReadHelper Ctx Meta) (s : MapRef) :
    List (ReadCall Ctx Meta) → Heap → Option Heap
  | [], h => some h
  | c :: cs, h =>
    match compatibleSystemRead sysRead s c.ctx c.d c.m h with
    | none => none
    | some r => runReads sysRead s cs r.2.2

/-- The body of a recorded callback, for the one callback whose body is in this
file; the generic helpers have theirs elsewhere in the provider. -/
def ContextFunc.body? {Ctx Meta : Type} (sysRead : ReadHelper Ctx Meta) :
    ContextFunc → Option (Ctx → ResourceData → Meta → Heap → Option (Diagnostics × ResourceData × Heap))
  | .compatibleSystemRead s => some (routeros.compatibleSystemRead sysRead s)
  | _ => none

/-! ## Reading a built resource -/

/-- The descriptor under `key` in the table of the resource descriptor `b.1`, read
in the heap `b.2` that came back with it. -/
def builtAttr (b : Resource × Heap) (key : String) : Option Schema :=
  b.2.attr b.1.Schema key

/-- The user-facing attributes of the resource descriptor `b.1` in the heap `b.2`. -/
def builtUserAttributes (b : Resource × Heap) : List String :=
  userAttributes b.2 b.1.Schema

/-- Whether the attribute `key` of a built resource takes the value `v`: the
attribute is declared and its validator, when it has one, reports no error. -/
def attrAccepts (L : GoLib) (b : Resource × Heap) (key : String) (v : Value) : Bool :=
  match builtAttr b key with
  | none => false
  | some sc =>
    match sc.ValidateFunc with
    | none => true
    | some f => f.accepts L v key

/-! ## The read helper, as the spec describes it -/

/-- Modelled from the spec: the provider meta is the API client, which is
declared elsewhere in the repository. A read sees the router only through what
the client brings back, "a populated state object or a diagnostic describing
what failed and why", so the client is represented by that reply. -/
inductive Client where
  | reply (fields : List (String × Value))
  | failure (diag : Diagnostic)
  deriving DecidableEq, Repr

/-- The value a reply carries for a field, if it carries the field. -/
def Client.field (m : Client) (key : String) : Option Value :=
  match m with
  | .reply fields => fields.lookup key
  | .failure _ => none

/-- Modelled from the spec: `SystemResourceRead` is declared elsewhere in the
repository. It is the "generic system-read helper" that is invoked "to populate
state as normal": every field of the reply is written into the resource data,
and a failure is "propagated unchanged" as the diagnostics, the resource data
being left as it was. -/
def SystemResourceRead : ReadHelper Unit Client :=
  fun _ _ d m _ =>
    match m with
    | .reply fields => ([], fields.foldl (fun d f => d.Set f.1 f.2) d)
    | .failure diag => ([diag], d)

/-! ## Sample inputs -/

/-- The descriptor and the heap that `ResourceRadiusIncoming` returns on the empty heap. -/
def sampleIncoming : Resource × Heap := ResourceRadiusIncoming Heap.empty

/-- A reply of a router that knows the vrf setting. -/
def replyWithVrf : Client :=
  .reply [("accept", .bool false), ("port", .int 3799), (vrfKey, .str "vrf1")]

/-- A reply of a router that predates the vrf setting. -/
def replyWithoutVrf : Client := .reply [("accept", .bool false), ("port", .int 3799)]

/-- Resource data that holds the vrf value "vrf1" before the read. -/
def dataWithVrf : ResourceData := { Id := "/radius/incoming", values := [(vrfKey, .str "vrf1")] }

/-- Resource data that holds no vrf value before the read. -/
def dataWithoutVrf : ResourceData :=
  { Id := "/radius/incoming", values := [("accept", .bool true)] }

/-! ## Heap lemmas -/

theorem Heap.setDefault_eq_some {h h1 : Heap} {p : SchemaPtr} {v : Value}
    (hs : h.setDefault p v = some h1) :
    ∃ sc, h.deref p = some sc ∧
      h1 = { h with schemas := h.schemas.set p { sc with Default := some v } } := by
  unfold Heap.setDefault at hs
  cases hp : h.schemas[p]? with
  | none => simp [hp] at hs
  | some sc =>
    simp only [hp, Option.some.injEq] at hs
    exact ⟨sc, hp, hs.symm⟩

theorem Heap.setDefault_isSome {h : Heap} {p : SchemaPtr} {sc : Schema} (v : Value)
    (hp : h.deref p = some sc) :
    h.setDefault p v = some { h with schemas := h.schemas.set p { sc with Default := some v } } := by
  unfold Heap.deref at hp
  simp [Heap.setDefault, hp]

theorem Heap.setDefault_maps {h h1 : Heap} {p : SchemaPtr} {v : Value}
    (hs : h.setDefault p v = some h1) : h1.maps = h.maps := by
  obtain ⟨sc, _, rfl⟩ := Heap.setDefault_eq_some hs
  rfl

theorem Heap.setDefault_deref_self {h h1 : Heap} {p : SchemaPtr} {v : Value} {sc : Schema}
    (hs : h.setDefault p v = some h1) (hp : h.deref p = some sc) :
    h1.deref p = some { sc with Default := some v } := by
  obtain ⟨sc1, hp1, rfl⟩ := Heap.setDefault_eq_some hs
  have hsc : sc1 = sc := by rw [hp] at hp1; exact (Option.some.inj hp1).symm
  subst hsc
  unfold Heap.deref at hp ⊢
  have hlt : p < h.schemas.length := by
    by_contra hge
    rw [List.getElem?_eq_none (Nat.le_of_not_lt hge)] at hp
    exact Option.noConfusion hp
  simp [List.getElem?_set_self hlt]

theorem Heap.setDefault_deref_ne {h h1 : Heap} {p q : SchemaPtr} {v : Value}
    (hs : h.setDefault p v = some h1) (hq : q ≠ p) : h1.deref q = h.deref q := by
  obtain ⟨sc1, _, rfl⟩ := Heap.setDefault_eq_some hs
  unfold Heap.deref
  simp [List.getElem?_set_ne (Ne.symm hq)]

theorem Heap.setDefault_index {h h1 : Heap} {p : SchemaPtr} {v : Value}
    (hs : h.setDefault p v = some h1) (s : MapRef) (k : String) :
    h1.index s k = h.index s k := by
  unfold Heap.index Heap.table
  rw [Heap.setDefault_maps hs]

theorem Heap.attr_isSome {h : Heap} {s : MapRef} {k : String} (ha : (h.attr s k).isSome = true) :
    ∃ p sc, h.index s k = some p ∧ h.deref p = some sc := by
  unfold Heap.attr at ha
  cases hi : h.index s k with
  | none => simp [hi] at ha
  | some p =>
    cases hd : h.deref p with
    | none => simp [hi, hd] at ha
    | some sc => exact ⟨p, sc, rfl, hd⟩

/-- What the callback does once the pointer under `vrfKey` is known to be valid. -/
theorem compatibleSystemRead_eq {Ctx Meta : Type} (sysRead : ReadHelper Ctx Meta) (s : MapRef)
    (ctx : Ctx) (d : ResourceData) (m : Meta) (h : Heap) {p : SchemaPtr} {sc : Schema}
    (hi : h.index s vrfKey = some p) (hp : h.deref p = some sc) :
    compatibleSystemRead sysRead s ctx d m h =
      some ((sysRead ctx s d m h).1, (sysRead ctx s d m h).2,
        if ((sysRead ctx s d m h).2.GetOk vrfKey).2 = true then
          { h with schemas := h.schemas.set p { sc with Default := some (.str "main") } }
        else h) := by
  unfold compatibleSystemRead
  by_cases hg : ((sysRead ctx s d m h).2.GetOk vrfKey).2 = true
  · simp [hg, hi, Heap.setDefault_isSome _ hp]
  · simp [hg]

/-- One read through the callback on a table whose `vrfKey` pointer is valid: it
returns, the tables are untouched, every other object is untouched, and the
object under `vrfKey` either has its `Default` set to "main" (a vrf value is in
the resource data) or is untouched together with the whole heap. -/
theorem compatibleSystemRead_step {Ctx Meta : Type} (sysRead : ReadHelper Ctx Meta) (s : MapRef)
    (ctx : Ctx) (d : ResourceData) (m : Meta) (h : Heap) {p : SchemaPtr} {sc : Schema}
    (hi : h.index s vrfKey = some p) (hp : h.deref p = some sc) :
    ∃ h1, compatibleSystemRead sysRead s ctx d m h
          = some ((sysRead ctx s d m h).1, (sysRead ctx s d m h).2, h1) ∧
      h1.maps = h.maps ∧
      (∀ q, q ≠ p → h1.deref q = h.deref q) ∧
      ((((sysRead ctx s d m h).2.GetOk vrfKey).2 = true ∧
          h1.deref p = some { sc with Default := some (.str "main") }) ∨
       (((sysRead ctx s d m h).2.GetOk vrfKey).2 = false ∧ h1 = h)) := by
  have hset := Heap.setDefault_isSome (.str "main") hp
  by_cases hg : ((sysRead ctx s d m h).2.GetOk vrfKey).2 = true
  · refine ⟨_, ?_, Heap.setDefault_maps hset, ?_, Or.inl ⟨hg, ?_⟩⟩
    · rw [compatibleSystemRead_eq sysRead s ctx d m h hi hp, if_pos hg]
    · intro q hq
      exact Heap.setDefault_deref_ne hset hq
    · exact Heap.setDefault_deref_self hset hp
  · refine ⟨h, ?_, rfl, fun _ _ => rfl, Or.inr ⟨by simpa using hg, rfl⟩⟩
    rw [compatibleSystemRead_eq sysRead s ctx d m h hi hp, if_neg hg]

theorem Heap.index_of_maps {h h1 : Heap} (hm : h1.maps = h.maps) (s : MapRef) (k : String) :
    h1.index s k = h.index s k := by
  unfold Heap.index Heap.table
  rw [hm]

theorem Heap.keys_of_maps {h h1 : Heap} (hm : h1.maps = h.maps) (s : MapRef) :
    h1.keys s = h.keys s := by
  unfold Heap.keys Heap.table
  rw [hm]

theorem vrfDefault_eq {h : Heap} {s : MapRef} {p : SchemaPtr} {sc : Schema}
    (hi : h.index s vrfKey = some p) (hp : h.deref p = some sc) :
    vrfDefault h s = some sc.Default := by
  simp [vrfDefault, Heap.attr, hi, hp]

/-- The effect of one read on the `Default` under `vrfKey`. -/
theorem compatibleSystemRead_default {Ctx Meta : Type} (sysRead : ReadHelper Ctx Meta) (s : MapRef)
    (ctx : Ctx) (d : ResourceData) (m : Meta) (h : Heap)
    (hentry : (h.attr s vrfKey).isSome = true) :
    ∃ h1, compatibleSystemRead sysRead s ctx d m h
          = some ((sysRead ctx s d m h).1, (sysRead ctx s d m h).2, h1) ∧
      (h1.attr s vrfKey).isSome = true ∧
      vrfDefault h1 s =
        if ((sysRead ctx s d m h).2.GetOk vrfKey).2 = true then some (some (.str "main"))
        else vrfDefault h s := by
  obtain ⟨p, sc, hi, hp⟩ := Heap.attr_isSome hentry
  obtain ⟨h1, hrun, hmaps, _, hcase⟩ := compatibleSystemRead_step sysRead s ctx d m h hi hp
  have hi1 : h1.index s vrfKey = some p := by rw [Heap.index_of_maps hmaps, hi]
  refine ⟨h1, hrun, ?_, ?_⟩
  · rcases hcase with ⟨_, hd⟩ | ⟨_, rfl⟩
    · simp [Heap.attr, hi1, hd]
    · exact hentry
  · rcases hcase with ⟨hg, hd⟩ | ⟨hg, rfl⟩
    · rw [if_pos hg, vrfDefault_eq hi1 hd]
    · rw [if_neg (by simp [hg])]

theorem runReads_append {Ctx Meta : Type} (sysRead : ReadHelper Ctx Meta) (s : MapRef)
    (xs ys : List (ReadCall Ctx Meta)) (h : Heap) :
    runReads sysRead s (xs ++ ys) h = (runReads sysRead s xs h).bind (runReads sysRead s ys) := by
  induction xs generalizing h with
  | nil => simp [runReads]
  | cons c cs ih =>
    simp only [List.cons_append, runReads]
    cases compatibleSystemRead sysRead s c.ctx c.d c.m h with
    | none => simp
    | some r => simpa using ih r.2.2

/-- A sequence of reads on a table with a `vrf` entry never panics; the `Default`
ends as it started or as "main", and if it started as "main" it ends as "main". -/
theorem runReads_default {Ctx Meta : Type} (sysRead : ReadHelper Ctx Meta) (s : MapRef)
    (calls : List (ReadCall Ctx Meta)) (h : Heap)
    (hentry : (h.attr s vrfKey).isSome = true) :
    ∃ h1, runReads sysRead s calls h = some h1 ∧
      (h1.attr s vrfKey).isSome = true ∧
      (vrfDefault h1 s = vrfDefault h s ∨ vrfDefault h1 s = some (some (.str "main"))) ∧
      (vrfDefault h s = some (some (.str "main")) →
        vrfDefault h1 s = some (some (.str "main"))) := by
  induction calls generalizing h with
  | nil => exact ⟨h, rfl, hentry, Or.inl rfl, id⟩
  | cons c cs ih =>
    obtain ⟨h1, hrun, hentry1, hdef⟩ :=
      compatibleSystemRead_default sysRead s c.ctx c.d c.m h hentry
    obtain ⟨h2, hrun2, hentry2, hor, hkeep⟩ := ih h1 hentry1
    refine ⟨h2, ?_, hentry2, ?_, ?_⟩
    · simp [runReads, hrun, hrun2]
    · by_cases hg : ((sysRead c.ctx s c.d c.m h).2.GetOk vrfKey).2 = true
      · rw [if_pos hg] at hdef
        exact Or.inr (hkeep hdef)
      · rw [if_neg hg] at hdef
        rcases hor with h' | h'
        · exact Or.inl (h'.trans hdef)
        · exact Or.inr h'
    · intro hmain
      apply hkeep
      by_cases hg : ((sysRead c.ctx s c.d c.m h).2.GetOk vrfKey).2 = true
      · rw [hdef, if_pos hg]
      · rw [hdef, if_neg hg, hmain]

/-! ## Map literals -/

theorem Heap.lookup_assign (es : List (String × Schema)) (pre : List Schema) (k : String) :
    ((Heap.assign pre.length es).lookup k).bind (fun p => (pre ++ es.map Prod.snd)[p]?)
      = es.lookup k := by
  induction es generalizing pre with
  | nil => simp [Heap.assign]
  | cons e es ih =>
    obtain ⟨k0, sc0⟩ := e
    simp only [Heap.assign, List.lookup_cons, List.map_cons]
    cases hk : k == k0 with
    | true =>
      have h0 : (pre ++ sc0 :: es.map Prod.snd)[pre.length]? = some sc0 := by
        rw [List.getElem?_append_right (Nat.le_refl _)]
        simp
      simpa using h0
    | false =>
      have h1 := ih (pre ++ [sc0])
      simpa using h1

theorem Heap.assign_lookup_ge {es : List (String × Schema)} {base q : Nat} {k : String}
    (hq : (Heap.assign base es).lookup k = some q) : base ≤ q := by
  induction es generalizing base with
  | nil => simp [Heap.assign] at hq
  | cons e es ih =>
    obtain ⟨k0, sc0⟩ := e
    simp only [Heap.assign, List.lookup_cons] at hq
    cases hk : k == k0 with
    | true =>
      simp only [hk, Option.some.injEq] at hq
      exact Nat.le_of_eq hq
    | false =>
      simp only [hk] at hq
      have := ih hq
      omega

/-- Two keys of a map literal never share a pointer. -/
theorem Heap.assign_lookup_inj {es : List (String × Schema)} {base q : Nat} {k k1 : String}
    (hq : (Heap.assign base es).lookup k = some q)
    (hq1 : (Heap.assign base es).lookup k1 = some q) : k = k1 := by
  induction es generalizing base with
  | nil => simp [Heap.assign] at hq
  | cons e es ih =>
    obtain ⟨k0, sc0⟩ := e
    simp only [Heap.assign, List.lookup_cons] at hq hq1
    cases hk : k == k0 with
    | true =>
      cases hk1 : k1 == k0 with
      | true =>
        have e1 : k = k0 := by simpa using hk
        have e2 : k1 = k0 := by simpa using hk1
        rw [e1, e2]
      | false =>
        simp only [hk, Option.some.injEq] at hq
        simp only [hk1] at hq1
        have hge := Heap.assign_lookup_ge hq1
        have heq : base = q := hq
        omega
    | false =>
      cases hk1 : k1 == k0 with
      | true =>
        simp only [hk] at hq
        simp only [hk1, Option.some.injEq] at hq1
        have hge := Heap.assign_lookup_ge hq
        have heq : base = q := hq1
        omega
      | false =>
        simp only [hk] at hq
        simp only [hk1] at hq1
        exact ih hq hq1

theorem Heap.assign_keys (es : List (String × Schema)) (base : SchemaPtr) :
    (Heap.assign base es).map Prod.fst = es.map Prod.fst := by
  induction es generalizing base with
  | nil => rfl
  | cons e es ih =>
    obtain ⟨k0, sc0⟩ := e
    simp [Heap.assign, ih]

theorem Heap.table_mapLit (h : Heap) (es : List (String × Schema)) :
    (h.mapLit es).2.table (h.mapLit es).1 = some (Heap.assign h.schemas.length es) := by
  simp [Heap.mapLit, Heap.table]

theorem Heap.index_mapLit (h : Heap) (es : List (String × Schema)) (k : String) :
    (h.mapLit es).2.index (h.mapLit es).1 k = (Heap.assign h.schemas.length es).lookup k := by
  simp [Heap.index, Heap.table_mapLit]

/-- Reading a freshly built table gives back the entries of the literal. -/
theorem Heap.attr_mapLit (h : Heap) (es : List (String × Schema)) (k : String) :
    (h.mapLit es).2.attr (h.mapLit es).1 k = es.lookup k := by
  rw [Heap.attr, Heap.index_mapLit]
  exact Heap.lookup_assign es h.schemas k

theorem Heap.keys_mapLit (h : Heap) (es : List (String × Schema)) :
    (h.mapLit es).2.keys (h.mapLit es).1 = es.map Prod.fst := by
  simp [Heap.keys, Heap.table_mapLit, Heap.assign_keys]

/-! ## The two tables, as built -/

theorem ResourceRadius_attr (h0 : Heap) (k : String) :
    (ResourceRadius h0).2.attr (ResourceRadius h0).1.Schema k = ResourceRadius.resSchema.lookup k :=
  Heap.attr_mapLit h0 ResourceRadius.resSchema k

theorem ResourceRadius_keys (h0 : Heap) :
    (ResourceRadius h0).2.keys (ResourceRadius h0).1.Schema
      = ResourceRadius.resSchema.map Prod.fst :=
  Heap.keys_mapLit h0 ResourceRadius.resSchema

theorem ResourceRadiusIncoming_attr (h0 : Heap) (k : String) :
    (ResourceRadiusIncoming h0).2.attr (ResourceRadiusIncoming h0).1.Schema k
      = ResourceRadiusIncoming.resSchema.lookup k :=
  Heap.attr_mapLit h0 ResourceRadiusIncoming.resSchema k

theorem ResourceRadiusIncoming_keys (h0 : Heap) :
    (ResourceRadiusIncoming h0).2.keys (ResourceRadiusIncoming h0).1.Schema
      = ResourceRadiusIncoming.resSchema.map Prod.fst :=
  Heap.keys_mapLit h0 ResourceRadiusIncoming.resSchema

theorem ResourceRadiusIncoming_index (h0 : Heap) (k : String) :
    (ResourceRadiusIncoming h0).2.index (ResourceRadiusIncoming h0).1.Schema k
      = (Heap.assign h0.schemas.length ResourceRadiusIncoming.resSchema).lookup k :=
  Heap.index_mapLit h0 ResourceRadiusIncoming.resSchema k

theorem ResourceRadiusIncoming_vrf_entry (h0 : Heap) :
    ((ResourceRadiusIncoming h0).2.attr (ResourceRadiusIncoming h0).1.Schema vrfKey).isSome
      = true := by
  rw [ResourceRadiusIncoming_attr]
  rfl

theorem ResourceRadiusIncoming_vrfDefault (h0 : Heap) :
    vrfDefault (ResourceRadiusIncoming h0).2 (ResourceRadiusIncoming h0).1.Schema = some none := by
  rw [vrfDefault, ResourceRadiusIncoming_attr]
  rfl

/-- A sequence of reads leaves the tables and every object but the one under
`vrfKey` as they were, and changes at most the `Default` of that one. -/
theorem runReads_frame {Ctx Meta : Type} (sysRead : ReadHelper Ctx Meta) (s : MapRef)
    (calls : List (ReadCall Ctx Meta)) (h : Heap) {p : SchemaPtr} {sc : Schema}
    (hi : h.index s vrfKey = some p) (hp : h.deref p = some sc) :
    ∃ h1 sc1, runReads sysRead s calls h = some h1 ∧ h1.maps = h.maps ∧
      (∀ q, q ≠ p → h1.deref q = h.deref q) ∧
      h1.deref p = some sc1 ∧ { sc1 with Default := sc.Default } = sc := by
  induction calls generalizing h sc with
  | nil => exact ⟨h, sc, rfl, rfl, fun _ _ => rfl, hp, rfl⟩
  | cons c cs ih =>
    obtain ⟨h1, hrun, hmaps, hother, hcase⟩ :=
      compatibleSystemRead_step sysRead s c.ctx c.d c.m h hi hp
    have hi1 : h1.index s vrfKey = some p := by rw [Heap.index_of_maps hmaps, hi]
    have hp1 : ∃ sc1, h1.deref p = some sc1 ∧ { sc1 with Default := sc.Default } = sc := by
      rcases hcase with ⟨_, hd⟩ | ⟨_, rfl⟩
      · exact ⟨_, hd, rfl⟩
      · exact ⟨sc, hp, rfl⟩
    obtain ⟨sc1, hd1, hsame1⟩ := hp1
    obtain ⟨h2, sc2, hrun2, hmaps2, hother2, hd2, hsame2⟩ := ih h1 hi1 hd1
    refine ⟨h2, sc2, ?_, hmaps2.trans hmaps, ?_, hd2, ?_⟩
    · simp [runReads, hrun, hrun2]
    · intro q hq
      rw [hother2 q hq, hother q hq]
    · rw [← hsame1, ← hsame2]

/-- On the table of `ResourceRadiusIncoming`, a key other than `vrfKey` holds a
pointer other than the one under `vrfKey`. -/
theorem ResourceRadiusIncoming_ptr_ne (h0 : Heap) {k : String} {p q : SchemaPtr}
    (hk : k ≠ vrfKey)
    (hq : (ResourceRadiusIncoming h0).2.index (ResourceRadiusIncoming h0).1.Schema k = some q)
    (hp : (ResourceRadiusIncoming h0).2.index (ResourceRadiusIncoming h0).1.Schema vrfKey = some p) :
    q ≠ p := by
  rw [ResourceRadiusIncoming_index] at hq hp
  intro hqp
  subst hqp
  exact hk (Heap.assign_lookup_inj hq hp)

/-! ## The compatibility adapter -/

/-- Claim C1. For every table `s` that has a `vrf` entry and every read that
leaves a vrf value in the resource data, the callback of `compatibleSystemRead`
returns and afterwards the `Default` of `s[vrfKey]` is the string "main"; the
heap, and with it the `Default` before the call, is arbitrary. -/
theorem vrf_default_main_after_read {Ctx Meta : Type} (sysRead : ReadHelper Ctx Meta)
    (s : MapRef) (ctx : Ctx) (d : ResourceData) (m : Meta) (h : Heap)
    (hentry : (h.attr s vrfKey).isSome = true)
    (hvrf : ((sysRead ctx s d m h).2.GetOk vrfKey).2 = true) :
    ∃ h1, compatibleSystemRead sysRead s ctx d m h
          = some ((sysRead ctx s d m h).1, (sysRead ctx s d m h).2, h1) ∧
      vrfDefault h1 s = some (some (.str "main")) := by
  obtain ⟨h1, hrun, _, hdef⟩ := compatibleSystemRead_default sysRead s ctx d m h hentry
  rw [if_pos hvrf] at hdef
  exact ⟨h1, hrun, hdef⟩

/-- Witness of C1: a reply with the vrf value "vrf1", read into the table that
`ResourceRadiusIncoming` builds on the empty heap. -/
theorem vrf_default_main_after_read_witness :
    (sampleIncoming.2.attr sampleIncoming.1.Schema vrfKey).isSome = true ∧
    ((SystemResourceRead () sampleIncoming.1.Schema dataWithoutVrf replyWithVrf
        sampleIncoming.2).2.GetOk vrfKey).2 = true ∧
    (compatibleSystemRead SystemResourceRead sampleIncoming.1.Schema () dataWithoutVrf
        replyWithVrf sampleIncoming.2).map (fun r => vrfDefault r.2.2 sampleIncoming.1.Schema)
      = some (some (some (.str "main"))) := by
  refine ⟨by decide, by decide, ?_⟩
  obtain ⟨h1, hrun, hdef⟩ :=
    vrf_default_main_after_read SystemResourceRead sampleIncoming.1.Schema () dataWithoutVrf
      replyWithVrf sampleIncoming.2 (by decide) (by decide)
  rw [hrun]
  exact congrArg some hdef

/-- Claim C3. For every finite sequence of reads through the callback on one
table with a `vrf` entry, split anywhere into earlier and later reads: all of
them return; if the `Default` is "main" after the earlier reads it is "main"
after the later ones as well, whatever those read; and the later reads leave the
`Default` as it was or make it "main", so it only ever changes to "main". -/
theorem vrf_default_never_reverts {Ctx Meta : Type} (sysRead : ReadHelper Ctx Meta)
    (s : MapRef) (h : Heap) (earlier later : List (ReadCall Ctx Meta))
    (hentry : (h.attr s vrfKey).isSome = true) :
    ∃ h1 h2, runReads sysRead s earlier h = some h1 ∧
      runReads sysRead s (earlier ++ later) h = some h2 ∧
      (vrfDefault h1 s = some (some (.str "main")) →
        vrfDefault h2 s = some (some (.str "main"))) ∧
      (vrfDefault h2 s = vrfDefault h1 s ∨ vrfDefault h2 s = some (some (.str "main"))) := by
  obtain ⟨h1, hrun1, hentry1, _, _⟩ := runReads_default sysRead s earlier h hentry
  obtain ⟨h2, hrun2, _, hor, hkeep⟩ := runReads_default sysRead s later h1 hentry1
  refine ⟨h1, h2, hrun1, ?_, hkeep, hor⟩
  rw [runReads_append, hrun1]
  exact hrun2

/-- Witness of C3: on the table of `ResourceRadiusIncoming`, a read that returns
"vrf1" followed by a read whose reply has no vrf field; the `Default` is "main"
after the first and after the second. -/
theorem vrf_default_never_reverts_witness :
    (sampleIncoming.2.attr sampleIncoming.1.Schema vrfKey).isSome = true ∧
    (runReads SystemResourceRead sampleIncoming.1.Schema
        [⟨(), dataWithoutVrf, replyWithVrf⟩] sampleIncoming.2).map
        (fun h1 => vrfDefault h1 sampleIncoming.1.Schema)
      = some (some (some (.str "main"))) ∧
    ∃ h2, runReads SystemResourceRead sampleIncoming.1.Schema
          ([⟨(), dataWithoutVrf, replyWithVrf⟩] ++ [⟨(), dataWithoutVrf, replyWithoutVrf⟩])
          sampleIncoming.2 = some h2 ∧
      vrfDefault h2 sampleIncoming.1.Schema = some (some (.str "main")) := by
  refine ⟨by decide, by decide, ?_⟩
  obtain ⟨h1, h2, hrun1, hrun2, hkeep, _⟩ :=
    vrf_default_never_reverts SystemResourceRead sampleIncoming.1.Schema sampleIncoming.2
      [⟨(), dataWithoutVrf, replyWithVrf⟩] [⟨(), dataWithoutVrf, replyWithoutVrf⟩] (by decide)
  refine ⟨h2, hrun2, hkeep ?_⟩
  have hfirst : (runReads SystemResourceRead sampleIncoming.1.Schema
      [⟨(), dataWithoutVrf, replyWithVrf⟩] sampleIncoming.2).map
        (fun h1 => vrfDefault h1 sampleIncoming.1.Schema)
      = some (some (some (.str "main"))) := by decide
  rw [hrun1] at hfirst
  exact Option.some.inj hfirst

/-- Claim C4. For every context, resource data and provider meta: whatever the
callback of `compatibleSystemRead s` returns, its diagnostics are the ones
`SystemResourceRead` returns for the same arguments, and so is the resource
data; the callback does return when the table has a `vrf` entry, and also when
no vrf value is left in the resource data. -/
theorem compatibleSystemRead_diagnostics {Ctx Meta : Type} (sysRead : ReadHelper Ctx Meta)
    (s : MapRef) (ctx : Ctx) (d : ResourceData) (m : Meta) (h : Heap) :
    (∀ r, compatibleSystemRead sysRead s ctx d m h = some r →
        r.1 = (sysRead ctx s d m h).1 ∧ r.2.1 = (sysRead ctx s d m h).2) ∧
    ((h.attr s vrfKey).isSome = true →
        ∃ h1, compatibleSystemRead sysRead s ctx d m h
          = some ((sysRead ctx s d m h).1, (sysRead ctx s d m h).2, h1)) ∧
    (((sysRead ctx s d m h).2.GetOk vrfKey).2 = false →
        compatibleSystemRead sysRead s ctx d m h
          = some ((sysRead ctx s d m h).1, (sysRead ctx s d m h).2, h)) := by
  refine ⟨?_, ?_, ?_⟩
  · intro r hr
    unfold compatibleSystemRead at hr
    by_cases hg : ((sysRead ctx s d m h).2.GetOk vrfKey).2 = true
    · rw [if_pos hg] at hr
      cases hi : h.index s vrfKey with
      | none => simp [hi] at hr
      | some p =>
        cases hs : h.setDefault p (.str "main") with
        | none => simp [hi, hs] at hr
        | some h1 =>
          simp only [hi, hs, Option.some.injEq] at hr
          subst hr
          exact ⟨rfl, rfl⟩
    · rw [if_neg hg] at hr
      simp only [Option.some.injEq] at hr
      subst hr
      exact ⟨rfl, rfl⟩
  · intro hentry
    obtain ⟨h1, hrun, _⟩ := compatibleSystemRead_default sysRead s ctx d m h hentry
    exact ⟨h1, hrun⟩
  · intro hg
    unfold compatibleSystemRead
    simp [hg]

/-- Witness of C4: a read that fails while the resource data holds a vrf value;
the callback returns, and what it returns is the diagnostic of the failure. -/
theorem compatibleSystemRead_diagnostics_witness :
    compatibleSystemRead SystemResourceRead sampleIncoming.1.Schema () dataWithVrf
        (.failure { Severity := .Error, Summary := "connection refused" }) sampleIncoming.2
      ≠ none ∧
    ∀ r, compatibleSystemRead SystemResourceRead sampleIncoming.1.Schema () dataWithVrf
          (.failure { Severity := .Error, Summary := "connection refused" }) sampleIncoming.2
          = some r →
      r.1 = [{ Severity := .Error, Summary := "connection refused" }] :=
  ⟨by decide, fun r hr =>
    ((compatibleSystemRead_diagnostics SystemResourceRead sampleIncoming.1.Schema () dataWithVrf
        (.failure { Severity := .Error, Summary := "connection refused" })
        sampleIncoming.2).1 r hr).1⟩

/-- Claim C10. For every table `s` with a `vrf` entry, one read through the
callback leaves every table as it was (so the keys of `s` are unchanged), leaves
every descriptor object other than the one under `vrfKey` as it was (so every
key of `s` that holds another pointer reads the same descriptor as before), and
changes no field of the descriptor under `vrfKey` other than `Default`. The
table built by `ResourceRadiusIncoming` has a descriptor under `vrfKey`, no
sequence of reads on it panics, and every attribute other than `vrf` reads
afterwards what it read when the table was built. -/
theorem compatibleSystemRead_frame {Ctx Meta : Type} (sysRead : ReadHelper Ctx Meta) :
    (∀ (s : MapRef) (ctx : Ctx) (d : ResourceData) (m : Meta) (h : Heap),
      (h.attr s vrfKey).isSome = true →
      ∃ p sc sc1 h1, h.index s vrfKey = some p ∧ h.deref p = some sc ∧
        compatibleSystemRead sysRead s ctx d m h
          = some ((sysRead ctx s d m h).1, (sysRead ctx s d m h).2, h1) ∧
        h1.maps = h.maps ∧ h1.keys s = h.keys s ∧
        (∀ q, q ≠ p → h1.deref q = h.deref q) ∧
        (∀ k q, h.index s k = some q → q ≠ p → h1.attr s k = h.attr s k) ∧
        h1.deref p = some sc1 ∧
        sc1.Type_ = sc.Type_ ∧ sc1.Optional = sc.Optional ∧ sc1.Required = sc.Required ∧
        sc1.Description = sc.Description ∧ sc1.ValidateFunc = sc.ValidateFunc ∧
        sc1.Sensitive = sc.Sensitive ∧ sc1.DiffSuppressFunc = sc.DiffSuppressFunc) ∧
    (∀ (h0 : Heap) (calls : List (ReadCall Ctx Meta)),
      ((ResourceRadiusIncoming h0).2.attr (ResourceRadiusIncoming h0).1.Schema vrfKey).isSome
        = true ∧
      ∃ h1, runReads sysRead (ResourceRadiusIncoming h0).1.Schema calls
              (ResourceRadiusIncoming h0).2 = some h1 ∧
        h1.keys (ResourceRadiusIncoming h0).1.Schema
          = (ResourceRadiusIncoming h0).2.keys (ResourceRadiusIncoming h0).1.Schema ∧
        ∀ k, k ≠ vrfKey →
          h1.attr (ResourceRadiusIncoming h0).1.Schema k
            = (ResourceRadiusIncoming h0).2.attr (ResourceRadiusIncoming h0).1.Schema k) := by
  constructor
  · intro s ctx d m h hentry
    obtain ⟨p, sc, hi, hp⟩ := Heap.attr_isSome hentry
    obtain ⟨h1, hrun, hmaps, hother, hcase⟩ := compatibleSystemRead_step sysRead s ctx d m h hi hp
    have hsc1 : ∃ sc1, h1.deref p = some sc1 ∧ { sc1 with Default := sc.Default } = sc := by
      rcases hcase with ⟨_, hd⟩ | ⟨_, rfl⟩
      · exact ⟨_, hd, rfl⟩
      · exact ⟨sc, hp, rfl⟩
    obtain ⟨sc1, hd1, hsame⟩ := hsc1
    refine ⟨p, sc, sc1, h1, hi, hp, hrun, hmaps, Heap.keys_of_maps hmaps s, hother, ?_, hd1, ?_⟩
    · intro k q hk hq
      unfold Heap.attr
      rw [Heap.index_of_maps hmaps, hk]
      exact hother q hq
    · rw [← hsame]
      exact ⟨rfl, rfl, rfl, rfl, rfl, rfl, rfl⟩
  · intro h0 calls
    obtain ⟨p, sc, hi, hp⟩ := Heap.attr_isSome (ResourceRadiusIncoming_vrf_entry h0)
    obtain ⟨h1, sc1, hrun, hmaps, hother, _, _⟩ :=
      runReads_frame sysRead (ResourceRadiusIncoming h0).1.Schema calls
        (ResourceRadiusIncoming h0).2 hi hp
    refine ⟨ResourceRadiusIncoming_vrf_entry h0, h1, hrun, Heap.keys_of_maps hmaps _, ?_⟩
    intro k hk
    unfold Heap.attr
    rw [Heap.index_of_maps hmaps]
    cases hq : (ResourceRadiusIncoming h0).2.index (ResourceRadiusIncoming h0).1.Schema k with
    | none => rfl
    | some q => exact hother q (ResourceRadiusIncoming_ptr_ne h0 hk hq hi)

/-! ## The read helper of the spec -/

theorem lookup_filter_ne (vals : List (String × Value)) {key k : String} (hk : key ≠ k) :
    (vals.filter (fun e => e.1 != k)).lookup key = vals.lookup key := by
  induction vals with
  | nil => rfl
  | cons e es ih =>
    obtain ⟨k0, v0⟩ := e
    by_cases h0 : k0 = k
    · subst h0
      have hne : (key == k0) = false := by simpa using hk
      simp [List.filter_cons, List.lookup_cons, hne, ih]
    · have hne : (k0 != k) = true := by simpa using h0
      simp only [List.filter_cons, hne, if_true, List.lookup_cons, ih]

theorem ResourceData.GetOk_Set_ne (d : ResourceData) {key k : String} (v : Value)
    (hk : key ≠ k) : (d.Set k v).GetOk key = d.GetOk key := by
  have hne : (key == k) = false := by simpa using hk
  simp [ResourceData.GetOk, ResourceData.Set, List.lookup_cons, hne, lookup_filter_ne _ hk]

/-- Writing a reply that carries no field `key` leaves what `GetOk key` reports. -/
theorem GetOk_foldl_Set (fields : List (String × Value)) (d : ResourceData) (key : String)
    (hno : fields.lookup key = none) :
    (fields.foldl (fun d f => d.Set f.1 f.2) d).GetOk key = d.GetOk key := by
  induction fields generalizing d with
  | nil => rfl
  | cons f fs ih =>
    obtain ⟨k0, v0⟩ := f
    rw [List.lookup_cons] at hno
    cases hk : key == k0 with
    | true => simp [hk] at hno
    | false =>
      simp only [hk] at hno
      have hne : key ≠ k0 := by simpa using hk
      rw [List.foldl_cons, ih _ hno, ResourceData.GetOk_Set_ne d v0 hne]

/-- Counterexample to C2 as stated: the reply carries no vrf field, the resource
data passed to the read already holds the vrf value "vrf1", the table is the one
`ResourceRadiusIncoming` builds, with the `Default` of `vrf` unset, and after
the callback that `Default` is "main". -/
theorem default_set_without_vrf_in_reply :
    Client.field replyWithoutVrf vrfKey = none ∧
    vrfDefault sampleIncoming.2 sampleIncoming.1.Schema = some none ∧
    (compatibleSystemRead SystemResourceRead sampleIncoming.1.Schema () dataWithVrf
        replyWithoutVrf sampleIncoming.2).map (fun r => vrfDefault r.2.2 sampleIncoming.1.Schema)
      = some (some (some (.str "main"))) := by
  decide

/-- Writing what the client brought back leaves what `GetOk key` reports, when
that carries no field `key`: a reply without the field, or a failure. -/
theorem SystemResourceRead_GetOk (s : MapRef) (d : ResourceData) (m : Client) (h : Heap)
    (key : String) (hno : m.field key = none) :
    (SystemResourceRead () s d m h).2.GetOk key = d.GetOk key := by
  cases m with
  | reply fields => exact GetOk_foldl_Set fields d key hno
  | failure diag => rfl

/-- Claim C2, amended. For every answer of the router that carries no vrf field
(a reply without the field, or a failed read), the callback of
`compatibleSystemRead`, run on the table built by `ResourceRadiusIncoming`,
returns with the diagnostics and resource data of `SystemResourceRead`; it
leaves the `Default` of `vrf` unset when the resource data passed to the read
holds no vrf value, and makes it the string "main" when that data holds one; so
the `Default` is unset afterwards if and only if the data held no vrf value. -/
theorem default_after_read_without_vrf_field (h0 : Heap) (d : ResourceData) (m : Client)
    (hno : m.field vrfKey = none) :
    ∃ h1, compatibleSystemRead SystemResourceRead (ResourceRadiusIncoming h0).1.Schema ()
            d m (ResourceRadiusIncoming h0).2
          = some ((SystemResourceRead () (ResourceRadiusIncoming h0).1.Schema d m
                    (ResourceRadiusIncoming h0).2).1,
                  (SystemResourceRead () (ResourceRadiusIncoming h0).1.Schema d m
                    (ResourceRadiusIncoming h0).2).2, h1) ∧
      ((d.GetOk vrfKey).2 = false →
        vrfDefault h1 (ResourceRadiusIncoming h0).1.Schema = some none) ∧
      ((d.GetOk vrfKey).2 = true →
        vrfDefault h1 (ResourceRadiusIncoming h0).1.Schema = some (some (.str "main"))) ∧
      (vrfDefault h1 (ResourceRadiusIncoming h0).1.Schema = some none ↔
        (d.GetOk vrfKey).2 = false) := by
  obtain ⟨h1, hrun, _, hdef⟩ :=
    compatibleSystemRead_default SystemResourceRead (ResourceRadiusIncoming h0).1.Schema ()
      d m (ResourceRadiusIncoming h0).2 (ResourceRadiusIncoming_vrf_entry h0)
  rw [SystemResourceRead_GetOk _ d m _ vrfKey hno, ResourceRadiusIncoming_vrfDefault] at hdef
  refine ⟨h1, hrun, ?_, ?_, ?_⟩
  · intro hg
    rw [hdef, if_neg (by simp [hg])]
  · intro hg
    rw [hdef, if_pos hg]
  · rw [hdef]
    cases hg : (d.GetOk vrfKey).2 <;> simp

/-- Witness of the amended C2: a reply without a vrf field read into data that
holds no vrf value leaves the `Default` unset; a failed read on data that holds
"vrf1" makes it "main". -/
theorem default_after_read_without_vrf_field_witness :
    Client.field replyWithoutVrf vrfKey = none ∧
    (compatibleSystemRead SystemResourceRead sampleIncoming.1.Schema () dataWithoutVrf
        replyWithoutVrf sampleIncoming.2).map (fun r => vrfDefault r.2.2 sampleIncoming.1.Schema)
      = some (some none) ∧
    Client.field (.failure { Severity := .Error, Summary := "connection refused" }) vrfKey
      = none ∧
    (compatibleSystemRead SystemResourceRead sampleIncoming.1.Schema () dataWithVrf
        (.failure { Severity := .Error, Summary := "connection refused" })
        sampleIncoming.2).map (fun r => vrfDefault r.2.2 sampleIncoming.1.Schema)
      = some (some (some (.str "main"))) := by
  refine ⟨by decide, ?_, by decide, ?_⟩
  · obtain ⟨h1, hrun, hunset, _, _⟩ :=
      default_after_read_without_vrf_field Heap.empty dataWithoutVrf replyWithoutVrf
        (by decide)
    show (compatibleSystemRead SystemResourceRead (ResourceRadiusIncoming Heap.empty).1.Schema ()
      dataWithoutVrf replyWithoutVrf (ResourceRadiusIncoming Heap.empty).2).map _ = _
    rw [hrun]
    exact congrArg some (hunset (by decide))
  · obtain ⟨h1, hrun, _, hmain, _⟩ :=
      default_after_read_without_vrf_field Heap.empty dataWithVrf
        (.failure { Severity := .Error, Summary := "connection refused" }) (by decide)
    show (compatibleSystemRead SystemResourceRead (ResourceRadiusIncoming Heap.empty).1.Schema ()
      dataWithVrf _ (ResourceRadiusIncoming Heap.empty).2).map _ = _
    rw [hrun]
    exact congrArg some (hmain (by decide))

/-! ## The declared attributes -/

theorem builtAttr_ResourceRadius (h0 : Heap) (k : String) :
    builtAttr (ResourceRadius h0) k = ResourceRadius.resSchema.lookup k :=
  ResourceRadius_attr h0 k

theorem builtAttr_ResourceRadiusIncoming (h0 : Heap) (k : String) :
    builtAttr (ResourceRadiusIncoming h0) k = ResourceRadiusIncoming.resSchema.lookup k :=
  ResourceRadiusIncoming_attr h0 k

theorem builtUserAttributes_ResourceRadius (h0 : Heap) :
    builtUserAttributes (ResourceRadius h0)
      = (ResourceRadius.resSchema.map Prod.fst).filter
          (fun k => k != MetaResourcePath && k != MetaId) := by
  rw [builtUserAttributes, userAttributes, ResourceRadius_keys]

theorem builtUserAttributes_ResourceRadiusIncoming (h0 : Heap) :
    builtUserAttributes (ResourceRadiusIncoming h0)
      = (ResourceRadiusIncoming.resSchema.map Prod.fst).filter
          (fun k => k != MetaResourcePath && k != MetaId) := by
  rw [builtUserAttributes, userAttributes, ResourceRadiusIncoming_keys]

theorem IntBetween_accepts_iff (L : GoLib) (min max n : Int) (k : String) :
    (ValidateFunc.IntBetween min max).accepts L (.int n) k = true ↔ min ≤ n ∧ n ≤ max := by
  simp only [ValidateFunc.accepts, ValidateFunc.call, validation.IntBetween]
  by_cases hr : n < min ∨ n > max
  · rw [if_pos hr]
    simp only [List.isEmpty_cons, Bool.false_eq_true, false_iff]
    omega
  · rw [if_neg hr]
    simp only [List.isEmpty_nil, true_iff]
    omega

theorem lookup_mem {α : Type} (l : List (String × α)) {k : String} {a : α}
    (hl : l.lookup k = some a) : (k, a) ∈ l := by
  induction l with
  | nil => simp at hl
  | cons e es ih =>
    obtain ⟨k0, a0⟩ := e
    rw [List.lookup_cons] at hl
    cases hk : k == k0 with
    | true =>
      simp only [hk, Option.some.injEq] at hl
      have e1 : k = k0 := by simpa using hk
      simp [e1, hl]
    | false =>
      simp only [hk] at hl
      exact List.mem_cons_of_mem _ (ih hl)

/-- Claim C5. For every integer `n`, each port attribute (`accounting_port` and
`authentication_port` of `ResourceRadius`, `port` of `ResourceRadiusIncoming`)
takes `n` if and only if `0 ≤ n ≤ 65535`. -/
theorem port_attributes_accept_iff (L : GoLib) (h0 : Heap) (n : Int) :
    (attrAccepts L (ResourceRadius h0) "accounting_port" (.int n) = true ↔ 0 ≤ n ∧ n ≤ 65535) ∧
    (attrAccepts L (ResourceRadius h0) "authentication_port" (.int n) = true
      ↔ 0 ≤ n ∧ n ≤ 65535) ∧
    (attrAccepts L (ResourceRadiusIncoming h0) "port" (.int n) = true ↔ 0 ≤ n ∧ n ≤ 65535) := by
  refine ⟨?_, ?_, ?_⟩
  · have hl : ResourceRadius.resSchema.lookup "accounting_port" = some {
        Type_ := .TypeInt, Optional := true, Default := some (.int 1813),
        Description := "RADIUS server port used for accounting.",
        ValidateFunc := some (.IntBetween 0 65535) } := by rfl
    simp only [attrAccepts, builtAttr_ResourceRadius, hl]
    exact IntBetween_accepts_iff L 0 65535 n _
  · have hl : ResourceRadius.resSchema.lookup "authentication_port" = some {
        Type_ := .TypeInt, Optional := true, Default := some (.int 1812),
        Description := "RADIUS server port used for authentication.",
        ValidateFunc := some (.IntBetween 0 65535) } := by rfl
    simp only [attrAccepts, builtAttr_ResourceRadius, hl]
    exact IntBetween_accepts_iff L 0 65535 n _
  · have hl : ResourceRadiusIncoming.resSchema.lookup "port" = some {
        Type_ := .TypeInt, Optional := true, Default := some (.int 3799),
        Description := "The port number to listen for the requests on.",
        ValidateFunc := some (.IntBetween 0 65535) } := by rfl
    simp only [attrAccepts, builtAttr_ResourceRadiusIncoming, hl]
    exact IntBetween_accepts_iff L 0 65535 n _

/-- Claim C6. For every string `v`, the `protocol` attribute of `ResourceRadius`
takes `v` if and only if `v` is "radsec" or `v` is "udp", the comparison being
equality of strings. -/
theorem protocol_accepts_iff (L : GoLib) (h0 : Heap) (v : String) :
    attrAccepts L (ResourceRadius h0) "protocol" (.str v) = true ↔ v = "radsec" ∨ v = "udp" := by
  have hl : ResourceRadius.resSchema.lookup "protocol" = some {
      Type_ := .TypeString, Optional := true, Default := some (.str "udp"),
      Description := "An option specifies the protocol to use when communicating with the RADIUS Server.",
      ValidateFunc := some (.StringInSlice ["radsec", "udp"] false) } := by rfl
  simp only [attrAccepts, builtAttr_ResourceRadius, hl, ValidateFunc.accepts, ValidateFunc.call,
    validation.StringInSlice]
  by_cases hv : v = "radsec" ∨ v = "udp"
  · have hany : (["radsec", "udp"].any fun str => v == str || (false && L.EqualFold v str)) = true := by
      rcases hv with rfl | rfl <;> simp
    simp [hany, hv]
  · have hany : (["radsec", "udp"].any fun str => v == str || (false && L.EqualFold v str)) = false := by
      simpa using hv
    simp [hany, hv]

/-- Counterexample to C7 as stated: the table `ResourceRadius` builds on the
empty heap does not have 14 user-facing attributes. -/
theorem ResourceRadius_not_14_attributes :
    ¬ (builtUserAttributes (ResourceRadius Heap.empty)).length = 14 := by
  decide

/-- Claim C7, amended. The resource descriptor returned by `ResourceRadius`
declares 15 user-facing attributes, listed here; with the resource-path and id
meta entries its table has 17 keys, no two of them equal. -/
theorem ResourceRadius_attribute_count (h0 : Heap) :
    (builtUserAttributes (ResourceRadius h0)).length = 15 ∧
    builtUserAttributes (ResourceRadius h0)
      = ["accounting_backup", "accounting_port", "address", "authentication_port", "called_id",
         "certificate", "comment", "disabled", "domain", "protocol", "realm", "secret",
         "service", "src_address", "timeout"] ∧
    ((ResourceRadius h0).2.keys (ResourceRadius h0).1.Schema).length = 17 ∧
    ((ResourceRadius h0).2.keys (ResourceRadius h0).1.Schema).Nodup := by
  rw [builtUserAttributes_ResourceRadius, ResourceRadius_keys]
  decide

/-- Claim C8. In the table of `ResourceRadius`: `accounting_backup` is a bool
with default false; `accounting_port` and `authentication_port` are ints with
defaults 1813 and 1812; `address` is a required string with no default;
`certificate`, `protocol` and `timeout` are strings with defaults "none", "udp"
and "300ms"; an entry is marked sensitive exactly when its key is `secret`;
`src_address` is optional; and every entry that declares both a default and a
validator has its default accepted by the validator. -/
theorem ResourceRadius_declarations (L : GoLib) (h0 : Heap) :
    (builtAttr (ResourceRadius h0) "accounting_backup").map (fun sc => (sc.Type_, sc.Default))
      = some (.TypeBool, some (.bool false)) ∧
    (builtAttr (ResourceRadius h0) "accounting_port").map (fun sc => (sc.Type_, sc.Default))
      = some (.TypeInt, some (.int 1813)) ∧
    (builtAttr (ResourceRadius h0) "authentication_port").map (fun sc => (sc.Type_, sc.Default))
      = some (.TypeInt, some (.int 1812)) ∧
    (builtAttr (ResourceRadius h0) "address").map
        (fun sc => (sc.Type_, sc.Required, sc.Optional, sc.Default))
      = some (.TypeString, true, false, none) ∧
    (builtAttr (ResourceRadius h0) "certificate").map (fun sc => (sc.Type_, sc.Default))
      = some (.TypeString, some (.str "none")) ∧
    (builtAttr (ResourceRadius h0) "protocol").map (fun sc => (sc.Type_, sc.Default))
      = some (.TypeString, some (.str "udp")) ∧
    (builtAttr (ResourceRadius h0) "timeout").map (fun sc => (sc.Type_, sc.Default))
      = some (.TypeString, some (.str "300ms")) ∧
    (∀ k sc, builtAttr (ResourceRadius h0) k = some sc → (sc.Sensitive = true ↔ k = "secret")) ∧
    (builtAttr (ResourceRadius h0) "secret").map (fun sc => sc.Sensitive) = some true ∧
    (builtAttr (ResourceRadius h0) "src_address").map (fun sc => (sc.Optional, sc.Required))
      = some (true, false) ∧
    (∀ k sc f v, builtAttr (ResourceRadius h0) k = some sc → sc.ValidateFunc = some f →
      sc.Default = some v → f.accepts L v k = true) := by
  simp only [builtAttr_ResourceRadius]
  refine ⟨by rfl, by rfl, by rfl, by rfl, by rfl, by rfl, by rfl, ?_, by rfl, by rfl, ?_⟩
  · intro k sc hl
    have hall : ∀ e ∈ ResourceRadius.resSchema, (e.2.Sensitive = true ↔ e.1 = "secret") := by
      decide
    exact hall (k, sc) (lookup_mem _ hl)
  · intro k sc f v hl hf hv
    have hall : ∀ e ∈ ResourceRadius.resSchema, ∀ f v, e.2.ValidateFunc = some f →
        e.2.Default = some v → f.accepts L v e.1 = true := by
      intro e he f v hf hv
      simp only [ResourceRadius.resSchema, List.mem_cons, List.mem_singleton, List.mem_nil_iff,
        or_false] at he
      rcases he with rfl | rfl | rfl | rfl | rfl | rfl | rfl | rfl | rfl | rfl | rfl | rfl | rfl
        | rfl | rfl | rfl | rfl <;>
      simp [PropResourcePath, PropId, PropCommentRw, PropDisabledRw] at hf hv <;>
      (obtain rfl := hf; obtain rfl := hv) <;>
      simp [ValidateFunc.accepts, ValidateFunc.call, validation.IntBetween,
        validation.StringInSlice]
    exact hall (k, sc) (lookup_mem _ hl) f v hf hv

/-- Claim C9. The resource descriptor returned by `ResourceRadiusIncoming`
declares exactly the attributes `accept` (bool, optional, default false), `port`
(int, optional, default 3799, taking exactly the integers of `[0, 65535]`) and
`vrf` (string, optional, no default and no validator when built). Its read
callback is `compatibleSystemRead` applied to the table that its `Schema` field
holds, so that after a read through the callback the `Default` of `vrf`, read
through `Schema`, is "main" if the read left a vrf value in the resource data
and unset if not. -/
theorem ResourceRadiusIncoming_descriptor {Ctx Meta : Type} (L : GoLib)
    (sysRead : ReadHelper Ctx Meta) (h0 : Heap) :
    builtUserAttributes (ResourceRadiusIncoming h0) = ["accept", "port", "vrf"] ∧
    (builtAttr (ResourceRadiusIncoming h0) "accept").map
        (fun sc => (sc.Type_, sc.Optional, sc.Required, sc.Default))
      = some (.TypeBool, true, false, some (.bool false)) ∧
    (builtAttr (ResourceRadiusIncoming h0) "port").map
        (fun sc => (sc.Type_, sc.Optional, sc.Required, sc.Default, sc.ValidateFunc))
      = some (.TypeInt, true, false, some (.int 3799), some (.IntBetween 0 65535)) ∧
    (∀ n : Int,
      attrAccepts L (ResourceRadiusIncoming h0) "port" (.int n) = true ↔ 0 ≤ n ∧ n ≤ 65535) ∧
    (builtAttr (ResourceRadiusIncoming h0) "vrf").map
        (fun sc => (sc.Type_, sc.Optional, sc.Required, sc.Default, sc.ValidateFunc))
      = some (.TypeString, true, false, none, none) ∧
    (ResourceRadiusIncoming h0).1.ReadContext
      = .compatibleSystemRead (ResourceRadiusIncoming h0).1.Schema ∧
    (ResourceRadiusIncoming h0).1.ReadContext.body? sysRead
      = some (compatibleSystemRead sysRead (ResourceRadiusIncoming h0).1.Schema) ∧
    (∀ (ctx : Ctx) (d : ResourceData) (m : Meta),
      ∃ h1, compatibleSystemRead sysRead (ResourceRadiusIncoming h0).1.Schema ctx d m
              (ResourceRadiusIncoming h0).2
            = some ((sysRead ctx (ResourceRadiusIncoming h0).1.Schema d m
                      (ResourceRadiusIncoming h0).2).1,
                    (sysRead ctx (ResourceRadiusIncoming h0).1.Schema d m
                      (ResourceRadiusIncoming h0).2).2, h1) ∧
        vrfDefault h1 (ResourceRadiusIncoming h0).1.Schema
          = if ((sysRead ctx (ResourceRadiusIncoming h0).1.Schema d m
                  (ResourceRadiusIncoming h0).2).2.GetOk vrfKey).2 = true
            then some (some (.str "main")) else some none) := by
  refine ⟨?_, ?_, ?_, ?_, ?_, rfl, rfl, ?_⟩
  · rw [builtUserAttributes_ResourceRadiusIncoming]
    decide
  · rw [builtAttr_ResourceRadiusIncoming]
    rfl
  · rw [builtAttr_ResourceRadiusIncoming]
    rfl
  · intro n
    have hl : ResourceRadiusIncoming.resSchema.lookup "port" = some {
        Type_ := .TypeInt, Optional := true, Default := some (.int 3799),
        Description := "The port number to listen for the requests on.",
        ValidateFunc := some (.IntBetween 0 65535) } := by rfl
    simp only [attrAccepts, builtAttr_ResourceRadiusIncoming, hl]
    exact IntBetween_accepts_iff L 0 65535 n _
  · rw [builtAttr_ResourceRadiusIncoming]
    rfl
  · intro ctx d m
    obtain ⟨h1, hrun, _, hdef⟩ :=
      compatibleSystemRead_default sysRead (ResourceRadiusIncoming h0).1.Schema ctx d m
        (ResourceRadiusIncoming h0).2 (ResourceRadiusIncoming_vrf_entry h0)
    rw [ResourceRadiusIncoming_vrfDefault] at hdef
    exact ⟨h1, hrun, hdef⟩

/-! ## Further properties of the file -/

/-- Extra X1. The callback of `compatibleSystemRead s` panics exactly when the read left a
vrf value in the resource data and `s[vrfKey]` is no descriptor: the assignment
to `s[vrfKey].Default` is not guarded by a nil check. -/
theorem compatibleSystemRead_panics_iff {Ctx Meta : Type} (sysRead : ReadHelper Ctx Meta)
    (s : MapRef) (ctx : Ctx) (d : ResourceData) (m : Meta) (h : Heap) :
    compatibleSystemRead sysRead s ctx d m h = none ↔
      (((sysRead ctx s d m h).2.GetOk vrfKey).2 = true ∧ h.attr s vrfKey = none) := by
  unfold compatibleSystemRead
  by_cases hg : ((sysRead ctx s d m h).2.GetOk vrfKey).2 = true
  · rw [if_pos hg]
    cases hi : h.index s vrfKey with
    | none => simp [hg, Heap.attr, hi]
    | some p =>
      cases hp : h.deref p with
      | none =>
        have hs : h.setDefault p (.str "main") = none := by
          unfold Heap.deref at hp
          simp [Heap.setDefault, hp]
        simp [hg, Heap.attr, hi, hp, hs]
      | some sc =>
        simp [hg, Heap.attr, hi, hp, Heap.setDefault_isSome _ hp]
  · rw [if_neg hg]
    simp [hg]

/-- Extra X2. The descriptor returned by `ResourceRadius` binds the four generic helpers
`DefaultCreate`, `DefaultRead`, `DefaultUpdate` and `DefaultDelete` to the table
its `Schema` field holds; the one returned by `ResourceRadiusIncoming` binds the
system variants for create, update and delete; both import by passthrough. -/
theorem resource_callbacks (h0 : Heap) :
    (ResourceRadius h0).1.CreateContext = .DefaultCreate (ResourceRadius h0).1.Schema ∧
    (ResourceRadius h0).1.ReadContext = .DefaultRead (ResourceRadius h0).1.Schema ∧
    (ResourceRadius h0).1.UpdateContext = .DefaultUpdate (ResourceRadius h0).1.Schema ∧
    (ResourceRadius h0).1.DeleteContext = .DefaultDelete (ResourceRadius h0).1.Schema ∧
    (ResourceRadius h0).1.Importer.StateContext = .ImportStatePassthroughContext ∧
    (ResourceRadiusIncoming h0).1.CreateContext
      = .DefaultSystemCreate (ResourceRadiusIncoming h0).1.Schema ∧
    (ResourceRadiusIncoming h0).1.UpdateContext
      = .DefaultSystemUpdate (ResourceRadiusIncoming h0).1.Schema ∧
    (ResourceRadiusIncoming h0).1.DeleteContext
      = .DefaultSystemDelete (ResourceRadiusIncoming h0).1.Schema ∧
    (ResourceRadiusIncoming h0).1.Importer.StateContext = .ImportStatePassthroughContext ∧
    (ResourceRadius h0).2.table (ResourceRadius h0).1.Schema
      = some (Heap.assign h0.schemas.length ResourceRadius.resSchema) ∧
    (∀ s, s < h0.maps.length → (ResourceRadius h0).2.table s = h0.table s) ∧
    (∀ p, p < h0.schemas.length → (ResourceRadius h0).2.deref p = h0.deref p) :=
  ⟨rfl, rfl, rfl, rfl, rfl, rfl, rfl, rfl, rfl, Heap.table_mapLit h0 _,
    fun s hs => by simp [ResourceRadius, Heap.mapLit, Heap.table, List.getElem?_append_left hs],
    fun p hp => by simp [ResourceRadius, Heap.mapLit, Heap.deref, List.getElem?_append_left hp]⟩

end routeros
